import Mathlib

/-!
# Verification of the fact-checking loop of `AgenticAI`

Shallow embedding of the core of `src/AgenticAI`:

* `extract_facts_from_summary` (src/AgenticAI/src/selection.py, lines 37-57),
* `verify_post_against_facts`  (src/AgenticAI/src/selection.py, lines 80-116),
* `route_after_verify` and the generate/verify cycle of the compiled
  langgraph workflow (src/AgenticAI/src/app.py, lines 22-57).

Strings are modelled as Lean `String`s, processed through their `List Char`
data.  The Python regular expressions used by the source are embedded as
explicit scanning functions with the exact backtracking semantics of the
`re` module on the character classes involved; the character classes `\s`
and `\w` are modelled by their ASCII parts (the source only ever feeds
ASCII news text to them), while `[A-Z]`, `[a-zA-Z]`, `[a-zA-Z0-9\-]` and
the literals are exact.

The external LLM collaborator (`make_llm`, the prompt, `chain.invoke`) is
modelled as an oracle `gen : Nat → Option String` giving the draft text
produced by the n-th generation call, `none` meaning the call raised.
-/

namespace AgenticAI

/-! ## Character classes -/

/-- Class `[A-Z]`. -/
def isUpperAZ (c : Char) : Bool := 'A' ≤ c && c ≤ 'Z'

/-- Class `[a-z]`. -/
def isLowerAZ (c : Char) : Bool := 'a' ≤ c && c ≤ 'z'

/-- Class `[a-zA-Z]`. -/
def isAsciiLetter (c : Char) : Bool := isUpperAZ c || isLowerAZ c

/-- Class `[0-9]`. -/
def isDigit09 (c : Char) : Bool := '0' ≤ c && c ≤ '9'

/-- Class `[a-zA-Z0-9\-]`, the class of every capitalized word after the first in
the phrase regex of `verify_post_against_facts`. -/
def isWordTailChar (c : Char) : Bool := isAsciiLetter c || isDigit09 c || c == '-'

/-- Class `\w` (ASCII part), which is what the word boundary `\b` tests. -/
def isWordChar (c : Char) : Bool := isAsciiLetter c || isDigit09 c || c == '_'

/-- Class `\s` (ASCII part): space, tab, newline, carriage return, vertical tab,
form feed. -/
def isSpaceChar (c : Char) : Bool :=
  c == ' ' || c == '\t' || c == '\n' || c == '\r' || c == '\x0b' || c == '\x0c'

/-- Python `str.lower` on an ASCII character. -/
def lowerChar (c : Char) : Char :=
  if isUpperAZ c then Char.ofNat (c.toNat + 32) else c

/-- Python `str.lower` on the character list of a string. -/
def lowerL (cs : List Char) : List Char := cs.map lowerChar

/-! ## Python string primitives used by `selection.py` -/

/-- Is `n` a prefix of `h`?  (Helper for the substring test.) -/
def isPrefixL : List Char → List Char → Bool
  | [], _ => true
  | _ :: _, [] => false
  | a :: n, b :: h => a == b && isPrefixL n h

/-- Python `needle in hay` on strings: contiguous substring occurrence. -/
def containsSub : List Char → List Char → Bool
  | n, [] => n.isEmpty
  | n, c :: h => isPrefixL n (c :: h) || containsSub n h

/-- Python `str.split()` (no argument): split on runs of whitespace,
dropping empty pieces. -/
def pySplit (cs : List Char) : List (List Char) :=
  (cs.splitOnP (fun c => isSpaceChar c)).filter (fun w => !w.isEmpty)

/-- Python `str.strip(chars)`: drop characters of the class `p` from both
ends. -/
def pyStripP (p : Char → Bool) (cs : List Char) : List Char :=
  ((cs.dropWhile p).reverse.dropWhile p).reverse

/-- Python `str.strip()` on the summary sentences (whitespace both ends). -/
def pyStrip (cs : List Char) : List Char := pyStripP isSpaceChar cs

/-- Python `b.strip("- ")` applied to a bullet match. -/
def stripDashSpace (cs : List Char) : List Char :=
  pyStripP (fun c => c == '-' || c == ' ') cs

/-! ## `re.findall(r"^-\s+.*$", summary, flags=re.MULTILINE)`

A match starts at a line start at a `-` that is followed by at least one
whitespace character; `\s+` greedily consumes the maximal whitespace run
(which may cross line ends), and `.*$` then consumes to the end of the
line the run stopped in.  `$` always succeeds there, so no backtracking
arises.  Scanning is non-overlapping, resuming after each match.  The fuel
is one more than the number of characters left; every step consumes at
least one character, so it never runs out when started that way. -/

def bulletScanAux : Nat → Bool → List Char → List (List Char) → List (List Char)
  | 0, _, _, acc => acc.reverse
  | _, _, [], acc => acc.reverse
  | fuel + 1, atStart, c :: rest, acc =>
    if atStart && c == '-' then
      let ws := rest.takeWhile isSpaceChar
      if ws.isEmpty then
        bulletScanAux fuel false rest acc
      else
        let r1 := rest.drop ws.length
        let line := r1.takeWhile (fun d => d != '\n')
        bulletScanAux fuel false (r1.drop line.length) ((c :: (ws ++ line)) :: acc)
    else
      bulletScanAux fuel (c == '\n') rest acc

/-- All matches of `^-\s+.*$` (MULTILINE) in `s`. -/
def bulletMatches (s : String) : List String :=
  (bulletScanAux (s.toList.length + 1) true s.toList []).map String.mk

/-! ## `re.split(r"(?<=[.!?])\s+", summary)`

Split points are the maximal whitespace runs whose preceding character is
`.`, `!` or `?`; scanning resumes after the consumed run.  The final piece
(possibly empty) is always produced, so the empty string splits to
`[""]`. -/

def isSentEnd (c : Char) : Bool := c == '.' || c == '!' || c == '?'

def sentSplitAux : Nat → Option Char → List Char → List Char → List (List Char) →
    List (List Char)
  | 0, _, cur, _, acc => (cur.reverse :: acc).reverse
  | _, _, cur, [], acc => (cur.reverse :: acc).reverse
  | fuel + 1, prev, cur, c :: rest, acc =>
    if (match prev with | some p => isSentEnd p | none => false) && isSpaceChar c then
      let ws := (c :: rest).takeWhile isSpaceChar
      sentSplitAux fuel (some (ws.getLastD c)) [] ((c :: rest).drop ws.length)
        (cur.reverse :: acc)
    else
      sentSplitAux fuel (some c) (c :: cur) rest acc

/-- The sentence pieces of `summary` per `re.split(r"(?<=[.!?])\s+", ·)`. -/
def splitSentences (s : String) : List String :=
  (sentSplitAux (s.toList.length + 1) none [] s.toList []).map String.mk

/-! ## `extract_facts_from_summary` (selection.py, lines 37-57) -/

/-- The `uniq`/`seen` deduplication loop at the end of
`extract_facts_from_summary`: keep the first occurrence of each string. -/
def dedupFirst (l : List String) : List String :=
  l.foldl (fun acc f => if acc.contains f then acc else acc ++ [f]) []

/-- Function `extract_facts_from_summary(summary)` (selection.py, lines 37-57):
the first fold is the bullet loop (`clean = b.strip("- ")`, kept when
`len(clean.split()) >= 3`), the second fold is the sentence loop
(`s = s.strip()`, kept when `len(s.split()) >= 5 and s not in facts`),
then the `uniq`/`seen` deduplication and `[:12]` truncation. -/
def extract_facts_from_summary (summary : String) : List String :=
  (dedupFirst
    ((splitSentences summary).foldl
      (fun acc s0 =>
        if 5 ≤ (pySplit (String.mk (pyStrip s0.toList)).toList).length
            && !acc.contains (String.mk (pyStrip s0.toList))
        then acc ++ [String.mk (pyStrip s0.toList)] else acc)
      ((bulletMatches summary).foldl
        (fun acc b =>
          if 3 ≤ (pySplit (String.mk (stripDashSpace b.toList)).toList).length
          then acc ++ [String.mk (stripDashSpace b.toList)] else acc) []))).take 12

/-- The bullet-derived fact candidates, in discovery order. -/
def bulletFacts (summary : String) : List String :=
  ((bulletMatches summary).map (fun b => String.mk (stripDashSpace b.toList))).filter
    (fun clean => 3 ≤ (pySplit clean.toList).length)

/-- The sentence-derived fact candidates, in discovery order, before the
`s not in facts` membership filtering of the sentence loop. -/
def sentenceFacts (summary : String) : List String :=
  ((splitSentences summary).map (fun s0 => String.mk (pyStrip s0.toList))).filter
    (fun s1 => 5 ≤ (pySplit s1.toList).length)

/-! ## `re.findall(r"\b([A-Z][a-zA-Z]+(?:\s+[A-Z][a-zA-Z0-9\-]+)+)\b", post)`

The capitalized-phrase detector of `verify_post_against_facts` (line 100).
A match is a first word `[A-Z][a-zA-Z]+` (an uppercase letter plus at
least one further letter, taken maximally: its continuation starts with
`\s`, disjoint from letters, so no backtracking can arise there), followed
by one or more groups `\s+[A-Z][a-zA-Z0-9\-]+`.  Inside a group the
whitespace run is maximal (its continuation starts with `[A-Z]`, disjoint
from `\s`), but the trailing word run backtracks: the engine prefers the
longest run, and within each run length prefers a further group over
stopping; stopping requires the word boundary `\b`.  Scanning tries every
position left to right (a position qualifies for the leading `\b` only if
the previous character is not a word character) and resumes after each
match.  Fuel decreases on every nested call; every group consumes at least
two characters, so `length + 1` fuel at the top is always enough. -/

/-- Word boundary `\b` between a last consumed character and the rest of the input. -/
def boundaryAfter (last : Char) (rest : List Char) : Bool :=
  match rest with
  | [] => isWordChar last
  | b :: _ => isWordChar last != isWordChar b

/-- The state of the backtracking search for the part of the phrase regex
after the first word:
* `more last cs`: match `(?:\s+[A-Z][a-zA-Z0-9\-]+)*\b` at `cs`, the
  character just before being `last`;
* `oneG cs`: match one group `\s+[A-Z][a-zA-Z0-9\-]+` followed by
  `(?:…)*\b`;
* `lens cap run k r2`: backtrack over the length of the trailing word run
  (maximal run `run` after the capital `cap`, rest `r2`), trying length
  `k` down to `1`, at each length preferring a further group over
  stopping at a word boundary. -/
inductive PJob where
  | more (last : Char) (cs : List Char)
  | oneG (cs : List Char)
  | lens (cap : Char) (run : List Char) (k : Nat) (r2 : List Char)

/-- The backtracking matcher, structurally recursive on a fuel that
bounds the depth of the search path (the caller supplies a quadratic
bound, ample since each group consumes input and each backtracking step
decreases `k`).  Returns the number of characters consumed. -/
def pmatch : Nat → PJob → Option Nat
  | 0, _ => none
  | fuel + 1, PJob.more last cs =>
    match pmatch fuel (PJob.oneG cs) with
    | some n => some n
    | none => if boundaryAfter last cs then some 0 else none
  | fuel + 1, PJob.oneG cs =>
    let ws := cs.takeWhile isSpaceChar
    if ws.isEmpty then none
    else
      match cs.drop ws.length with
      | [] => none
      | c :: r2 =>
        if isUpperAZ c then
          let run := r2.takeWhile isWordTailChar
          match pmatch fuel (PJob.lens c run run.length r2) with
          | some m => some (ws.length + 1 + m)
          | none => none
        else none
  | _ + 1, PJob.lens _ _ 0 _ => none
  | fuel + 1, PJob.lens cap run (k + 1) r2 =>
    match pmatch fuel (PJob.more (run.getD k cap) (r2.drop (k + 1))) with
    | some n => some ((k + 1) + n)
    | none => pmatch fuel (PJob.lens cap run k r2)

/-- Match `(?:\s+[A-Z][a-zA-Z0-9\-]+)+\b` at `cs`: one obligatory group,
then the greedy continuation. -/
def matchOneG (cs : List Char) : Option Nat :=
  pmatch ((cs.length + 3) * (cs.length + 3)) (PJob.oneG cs)

/-- The top-level scan of `re.findall` for the phrase regex: at each
position whose previous character is not a word character, try a match;
on success record it and resume after it, else advance one character. -/
def phraseScanAux : Nat → Bool → List Char → List (List Char) → List (List Char)
  | 0, _, _, acc => acc.reverse
  | _, _, [], acc => acc.reverse
  | fuel + 1, prevWord, c :: rest, acc =>
    if !prevWord && isUpperAZ c then
      let run := rest.takeWhile isAsciiLetter
      if run.isEmpty then phraseScanAux fuel true rest acc
      else
        match matchOneG (rest.drop run.length) with
        | some n =>
          let m := c :: (run ++ (rest.drop run.length).take n)
          phraseScanAux fuel (isWordChar (m.getLastD c)) ((c :: rest).drop m.length) (m :: acc)
        | none => phraseScanAux fuel true rest acc
    else
      phraseScanAux fuel (isWordChar c) rest acc

/-- List `capital_phrases` of `verify_post_against_facts` (line 100): every
match of the capitalized multi-word phrase regex in `post`, in order. -/
def capital_phrases (post : String) : List String :=
  (phraseScanAux (post.toList.length + 1) false post.toList []).map String.mk

/-! ## The data model of the loop (app.py `AppState`, selection.py reports)

`AppState` keeps the fields of the langgraph state dictionary that the
generate/verify cycle reads or writes.  `chosen_summary` is
`state["chosen"]["summary"]`; the chosen title and url only feed the
external LLM prompt, and the upstream `queries`/`results`/`summaries`
fields are never touched by the cycle, so they are omitted.  A missing
`verification` key (`state.get("verification", {})`) is `none`. -/

/-- The report dictionary built by `verify_post_against_facts`.  The
`message` key is only present in the max-iterations branch and the
`iteration` key only in the normal branch, hence the `Option`s. -/
structure Report where
  ok : Bool
  missing_phrases : List String
  checked_phrases : List String
  facts_used : List String
  max_iterations_reached : Bool
  message : Option String
  iteration : Option Nat
deriving DecidableEq, Repr

/-- The loop-relevant fields of the langgraph `AppState` dictionary. -/
structure AppState where
  chosen_summary : String
  post : String
  facts : List String
  verification : Option Report
  iteration_count : Nat
  max_iterations : Nat
deriving DecidableEq, Repr

/-- Python `" \n".join(facts).lower()`, the fact text a phrase is searched in. -/
def fact_text (facts : List String) : List Char :=
  lowerL (List.intercalate [' ', '\n'] (facts.map String.toList))

/-- The hallucination list of `verify_post_against_facts` (lines 103-105):
the detected phrases whose lowercase form is not a substring of the
lowercase fact text, in order. -/
def hallucinationsOf (post : String) (facts : List String) : List String :=
  (capital_phrases post).filter
    (fun phrase => !containsSub (lowerL phrase.toList) (fact_text facts))

/-- Function `verify_post_against_facts` (selection.py, lines 80-116).  If the
iteration count has already reached the budget it reports the degenerate
"Maximum iterations reached" verdict; otherwise it flags every detected
capitalized phrase missing from the fact text.  Both branches increment
`iteration_count`. -/
def verify_post_against_facts (state : AppState) : AppState :=
  if state.max_iterations ≤ state.iteration_count then
    { state with
      verification := some
        { ok := false
          missing_phrases := ["Maximum iterations reached"]
          checked_phrases := []
          facts_used := state.facts
          max_iterations_reached := true
          message := some "Reliable information not found"
          iteration := none }
      iteration_count := state.iteration_count + 1 }
  else
    let hallucinations := hallucinationsOf state.post state.facts
    { state with
      verification := some
        { ok := hallucinations.isEmpty
          missing_phrases := hallucinations
          checked_phrases := capital_phrases state.post
          facts_used := state.facts
          max_iterations_reached := false
          message := none
          iteration := some (state.iteration_count + 1) }
      iteration_count := state.iteration_count + 1 }

/-- Function `generate_post` (selection.py, lines 60-77) with the LLM call
abstracted: the produced post text is the oracle's output `draft`; the
facts are recomputed from the chosen summary on every call. -/
def generate_post (draft : String) (state : AppState) : AppState :=
  { state with
    post := draft
    facts := extract_facts_from_summary state.chosen_summary }

/-- Python `verification.get("ok", False)`. -/
def verifOk (state : AppState) : Bool :=
  match state.verification with
  | some r => r.ok
  | none => false

/-- Function `route_after_verify` (app.py, lines 42-52): end the graph when the
verdict passed or the iteration budget is consumed, otherwise loop back to
`generate_post`. -/
def route_after_verify (state : AppState) : String :=
  if verifOk state = true ∨ state.max_iterations ≤ state.iteration_count then
    "__end__"
  else
    "generate_post"

/-! ## The generate/verify cycle of the compiled workflow

`build_workflow` wires `generate_post → verify` with the conditional edge
`route_after_verify`; once the human choice is made the graph loops
through these two nodes until the route returns `"__end__"` (app.py,
lines 39-54).  `runLoop gen k s` runs that cycle: `k` counts the completed
generate/verify cycles so far and indexes the oracle; a `none` from the
oracle is the LLM call raising, which langgraph propagates out of the
graph at once, losing the in-flight cycle.  The terminal outcome
classification implements the spec interface
`runVerificationLoop -> {Passed | Exhausted | GenerationError}`. -/

/-- The three terminal outcomes of the verification loop. -/
inductive Outcome where
  | passed
  | exhausted
  | genError
deriving DecidableEq, Repr

/-- Result of a loop run: the outcome, the final state (for a generation
error, the state before the failed cycle), and the number of completed
generate/verify cycles. -/
structure RunResult where
  outcome : Outcome
  final : AppState
  cycles : Nat
deriving DecidableEq, Repr

/-- One generate/verify cycle, repeated until `route_after_verify`
returns `"__end__"`; `none` from the oracle aborts the run at once. -/
def runLoop (gen : Nat → Option String) (k : Nat) (s : AppState) : RunResult :=
  match gen k with
  | none => ⟨.genError, s, k⟩
  | some draft =>
    if h : route_after_verify (verify_post_against_facts (generate_post draft s)) = "__end__" then
      ⟨if verifOk (verify_post_against_facts (generate_post draft s)) then .passed else .exhausted,
        verify_post_against_facts (generate_post draft s), k + 1⟩
    else
      runLoop gen (k + 1) (verify_post_against_facts (generate_post draft s))
termination_by s.max_iterations - s.iteration_count
decreasing_by
  have h2 : (verify_post_against_facts (generate_post draft s)).iteration_count <
      (verify_post_against_facts (generate_post draft s)).max_iterations := by
    by_cases hc : verifOk (verify_post_against_facts (generate_post draft s)) = true ∨
        (verify_post_against_facts (generate_post draft s)).max_iterations ≤
          (verify_post_against_facts (generate_post draft s)).iteration_count
    · exact absurd (by unfold route_after_verify; exact if_pos hc) h
    · rcases Nat.lt_or_ge (verify_post_against_facts (generate_post draft s)).iteration_count
        (verify_post_against_facts (generate_post draft s)).max_iterations with hlt | hge
      · exact hlt
      · exact absurd (Or.inr hge) hc
  have h3 : (verify_post_against_facts (generate_post draft s)).iteration_count =
      s.iteration_count + 1 := by
    unfold verify_post_against_facts
    split <;> rfl
  have h4 : (verify_post_against_facts (generate_post draft s)).max_iterations =
      s.max_iterations := by
    unfold verify_post_against_facts
    split <;> rfl
  omega

/-- Function `runVerificationLoop` of the spec interface: start the cycle at
iteration 0 on a fresh state for the chosen summary, with the given
iteration budget.  (The Tableau CLI initializes
`iteration_count = 0, max_iterations = 3` and leaves `post`, `facts`
and `verification` unset, read back through defaulting `.get`s.) -/
def runVerificationLoop (gen : Nat → Option String) (summary : String)
    (maxIter : Nat) : RunResult :=
  runLoop gen 0 ⟨summary, "", [], none, 0, maxIter⟩

/-! ## The claim-side notion of a capitalized multi-word phrase

The spec claims quantify over "every contiguous capitalized multi-word
phrase (at least two consecutive capitalized tokens)" of the draft.  The
following definitions formalize that wording — independently of the code's
regex — so the two notions can be compared: tokens are the
whitespace-separated words of the draft, a token is capitalized when its
first character is an uppercase letter, and a phrase is a contiguous run
of at least two capitalized tokens, rendered with single spaces. -/

/-- Does the whitespace token start with an uppercase letter? -/
def tokenCapitalized (w : List Char) : Bool :=
  match w with
  | [] => false
  | c :: _ => isUpperAZ c

/-- Every contiguous run of at least two consecutive capitalized
whitespace tokens of the draft, joined by single spaces. -/
def claimCapPhrases (d : String) : List (List Char) :=
  ((pySplit d.toList).tails.map
    (fun suf =>
      (((suf.takeWhile tokenCapitalized).inits.filter
        (fun pre => 2 ≤ pre.length)).map
        (fun pre => List.intercalate [' '] pre)))).flatten

/-- The claim's verdict: every such phrase appears, lowercased, as a
substring of the lowercased fact text. -/
def claimAllCovered (d : String) (facts : List String) : Bool :=
  (claimCapPhrases d).all (fun p => containsSub (lowerL p) (fact_text facts))

/-! ## Helper lemmas -/

@[simp] theorem verify_iteration_count (s : AppState) :
    (verify_post_against_facts s).iteration_count = s.iteration_count + 1 := by
  unfold verify_post_against_facts
  split <;> rfl

@[simp] theorem verify_max_iterations (s : AppState) :
    (verify_post_against_facts s).max_iterations = s.max_iterations := by
  unfold verify_post_against_facts
  split <;> rfl

@[simp] theorem verify_chosen_summary (s : AppState) :
    (verify_post_against_facts s).chosen_summary = s.chosen_summary := by
  unfold verify_post_against_facts
  split <;> rfl

@[simp] theorem verify_facts (s : AppState) :
    (verify_post_against_facts s).facts = s.facts := by
  unfold verify_post_against_facts
  split <;> rfl

@[simp] theorem generate_post_iteration_count (d : String) (s : AppState) :
    (generate_post d s).iteration_count = s.iteration_count := rfl

@[simp] theorem generate_post_max_iterations (d : String) (s : AppState) :
    (generate_post d s).max_iterations = s.max_iterations := rfl

@[simp] theorem generate_post_chosen_summary (d : String) (s : AppState) :
    (generate_post d s).chosen_summary = s.chosen_summary := rfl

@[simp] theorem generate_post_facts (d : String) (s : AppState) :
    (generate_post d s).facts = extract_facts_from_summary s.chosen_summary := rfl

@[simp] theorem generate_post_post (d : String) (s : AppState) :
    (generate_post d s).post = d := rfl

theorem route_ne_end {s : AppState}
    (h : route_after_verify s ≠ "__end__") :
    verifOk s = false ∧ s.iteration_count < s.max_iterations := by
  by_cases hc : verifOk s = true ∨ s.max_iterations ≤ s.iteration_count
  · exact absurd (by unfold route_after_verify; exact if_pos hc) h
  · refine ⟨?_, ?_⟩
    · cases hb : verifOk s
      · rfl
      · exact absurd (Or.inl hb) hc
    · by_contra hle
      exact hc (Or.inr (Nat.le_of_not_lt hle))

/-! ### Step equations of the cycle -/

theorem runLoop_genError (gen : Nat → Option String) (k : Nat) (s : AppState)
    (hg : gen k = none) : runLoop gen k s = ⟨.genError, s, k⟩ := by
  unfold runLoop
  rw [hg]

theorem runLoop_stop (gen : Nat → Option String) (k : Nat) (s : AppState)
    (d : String) (hg : gen k = some d)
    (hr : route_after_verify (verify_post_against_facts (generate_post d s)) = "__end__") :
    runLoop gen k s =
      ⟨if verifOk (verify_post_against_facts (generate_post d s)) then .passed else .exhausted,
        verify_post_against_facts (generate_post d s), k + 1⟩ := by
  unfold runLoop
  rw [hg]
  simp only [hr, dif_pos]

theorem runLoop_continue (gen : Nat → Option String) (k : Nat) (s : AppState)
    (d : String) (hg : gen k = some d)
    (hr : route_after_verify (verify_post_against_facts (generate_post d s)) ≠ "__end__") :
    runLoop gen k s = runLoop gen (k + 1) (verify_post_against_facts (generate_post d s)) := by
  conv_lhs => unfold runLoop
  rw [hg]
  simp only [hr, dif_neg, not_false_iff]

/-- The normal branch of `verify_post_against_facts`, taken whenever the
iteration budget is not yet consumed on entry. -/
theorem verify_normal (x : AppState) (h : x.iteration_count < x.max_iterations) :
    verify_post_against_facts x =
      { x with
        verification := some
          { ok := (hallucinationsOf x.post x.facts).isEmpty
            missing_phrases := hallucinationsOf x.post x.facts
            checked_phrases := capital_phrases x.post
            facts_used := x.facts
            max_iterations_reached := false
            message := none
            iteration := some (x.iteration_count + 1) }
        iteration_count := x.iteration_count + 1 } := by
  unfold verify_post_against_facts
  rw [if_neg (Nat.not_le.mpr h)]

/-! ### Invariants of the cycle -/

/-- Master invariant of the generate/verify cycle, for runs entered with
budget remaining: the cycle count is bounded by the remaining budget, the
iteration counter advances by exactly one per completed cycle, it never
exceeds the budget, the budget is untouched, a `genError` outcome points
at the oracle call that failed, and the outcome classification agrees with
the final verdict. -/
theorem runLoop_invariants (gen : Nat → Option String) :
    ∀ n k s, s.max_iterations - s.iteration_count ≤ n →
      s.iteration_count < s.max_iterations →
      (runLoop gen k s).cycles ≤ k + (s.max_iterations - s.iteration_count) ∧
      (runLoop gen k s).final.iteration_count + k =
        s.iteration_count + (runLoop gen k s).cycles ∧
      (runLoop gen k s).final.iteration_count ≤ s.max_iterations ∧
      (runLoop gen k s).final.max_iterations = s.max_iterations ∧
      ((runLoop gen k s).outcome = Outcome.genError →
        gen (runLoop gen k s).cycles = none) ∧
      ((runLoop gen k s).outcome = Outcome.passed →
        verifOk (runLoop gen k s).final = true) ∧
      ((runLoop gen k s).outcome = Outcome.exhausted →
        verifOk (runLoop gen k s).final = false) := by
  intro n
  induction n with
  | zero =>
    intro k s hn hlt
    exact absurd hlt (by omega)
  | succ n ih =>
    intro k s hn hlt
    cases hg : gen k with
    | none =>
      rw [runLoop_genError gen k s hg]
      refine ⟨?_, ?_, ?_, rfl, ?_, ?_, ?_⟩
      · show k ≤ k + (s.max_iterations - s.iteration_count)
        omega
      · show s.iteration_count + k = s.iteration_count + k
        rfl
      · show s.iteration_count ≤ s.max_iterations
        omega
      · intro _
        exact hg
      · intro h
        simp at h
      · intro h
        simp at h
    | some d =>
      by_cases hr :
          route_after_verify (verify_post_against_facts (generate_post d s)) = "__end__"
      · rw [runLoop_stop gen k s d hg hr]
        cases hv : verifOk (verify_post_against_facts (generate_post d s)) with
        | false =>
          refine ⟨?_, ?_, ?_, ?_, ?_, ?_, ?_⟩
          · show k + 1 ≤ k + (s.max_iterations - s.iteration_count)
            omega
          · show (verify_post_against_facts (generate_post d s)).iteration_count + k =
              s.iteration_count + (k + 1)
            simp only [verify_iteration_count, generate_post_iteration_count]
            omega
          · show (verify_post_against_facts (generate_post d s)).iteration_count ≤
              s.max_iterations
            simp only [verify_iteration_count, generate_post_iteration_count]
            omega
          · show (verify_post_against_facts (generate_post d s)).max_iterations =
              s.max_iterations
            simp only [verify_max_iterations, generate_post_max_iterations]
          · intro h
            simp at h
          · intro h
            simp at h
          · intro _
            rfl
        | true =>
          refine ⟨?_, ?_, ?_, ?_, ?_, ?_, ?_⟩
          · show k + 1 ≤ k + (s.max_iterations - s.iteration_count)
            omega
          · show (verify_post_against_facts (generate_post d s)).iteration_count + k =
              s.iteration_count + (k + 1)
            simp only [verify_iteration_count, generate_post_iteration_count]
            omega
          · show (verify_post_against_facts (generate_post d s)).iteration_count ≤
              s.max_iterations
            simp only [verify_iteration_count, generate_post_iteration_count]
            omega
          · show (verify_post_against_facts (generate_post d s)).max_iterations =
              s.max_iterations
            simp only [verify_max_iterations, generate_post_max_iterations]
          · intro h
            simp at h
          · intro _
            rfl
          · intro h
            simp at h
      · rw [runLoop_continue gen k s d hg hr]
        have hlt1 := (route_ne_end hr).2
        rw [verify_iteration_count, verify_max_iterations,
          generate_post_iteration_count, generate_post_max_iterations] at hlt1
        have ihh := ih (k + 1) (verify_post_against_facts (generate_post d s))
          (by
            simp only [verify_iteration_count, verify_max_iterations,
              generate_post_iteration_count, generate_post_max_iterations]
            omega)
          (by
            simp only [verify_iteration_count, verify_max_iterations,
              generate_post_iteration_count, generate_post_max_iterations]
            omega)
        simp only [verify_iteration_count, verify_max_iterations,
          generate_post_iteration_count, generate_post_max_iterations] at ihh
        exact ⟨by omega, by omega, by omega, ihh.2.2.2.1,
          ihh.2.2.2.2.1, ihh.2.2.2.2.2.1, ihh.2.2.2.2.2.2⟩

/-- The cycle never touches the chosen summary, and (unless the very
first generation call of the run failed, leaving the state untouched) the
final fact list is the one extracted from that summary. -/
theorem runLoop_state_inv (gen : Nat → Option String) :
    ∀ n k s, s.max_iterations - s.iteration_count ≤ n →
      (runLoop gen k s).final.chosen_summary = s.chosen_summary ∧
      ((runLoop gen k s).final = s ∨
        (runLoop gen k s).final.facts = extract_facts_from_summary s.chosen_summary) := by
  intro n
  induction n with
  | zero =>
    intro k s hn
    cases hg : gen k with
    | none =>
      rw [runLoop_genError gen k s hg]
      exact ⟨rfl, Or.inl rfl⟩
    | some d =>
      by_cases hr :
          route_after_verify (verify_post_against_facts (generate_post d s)) = "__end__"
      · rw [runLoop_stop gen k s d hg hr]
        refine ⟨by simp, Or.inr (by simp)⟩
      · have hlt1 := (route_ne_end hr).2
        rw [verify_iteration_count, verify_max_iterations,
          generate_post_iteration_count, generate_post_max_iterations] at hlt1
        exact absurd hlt1 (by omega)
  | succ n ih =>
    intro k s hn
    cases hg : gen k with
    | none =>
      rw [runLoop_genError gen k s hg]
      exact ⟨rfl, Or.inl rfl⟩
    | some d =>
      by_cases hr :
          route_after_verify (verify_post_against_facts (generate_post d s)) = "__end__"
      · rw [runLoop_stop gen k s d hg hr]
        refine ⟨by simp, Or.inr (by simp)⟩
      · rw [runLoop_continue gen k s d hg hr]
        have hlt1 := (route_ne_end hr).2
        rw [verify_iteration_count, verify_max_iterations,
          generate_post_iteration_count, generate_post_max_iterations] at hlt1
        have ihh := ih (k + 1) (verify_post_against_facts (generate_post d s))
          (by
            simp only [verify_iteration_count, verify_max_iterations,
              generate_post_iteration_count, generate_post_max_iterations]
            omega)
        simp only [verify_chosen_summary, generate_post_chosen_summary,
          verify_facts, generate_post_facts] at ihh
        refine ⟨ihh.1, ?_⟩
        rcases ihh.2 with hfin | hfacts
        · right
          rw [hfin]
          simp
        · exact Or.inr hfacts

/-- The verdict of a budget-respecting verification is the emptiness of
the hallucination list. -/
theorem verifOk_after_verify (x : AppState)
    (h : x.iteration_count < x.max_iterations) :
    verifOk (verify_post_against_facts x) =
      (hallucinationsOf x.post x.facts).isEmpty := by
  rw [verify_normal x h]
  rfl

/-- If the oracle never fails and every draft it produces has a
hallucination against the facts extracted from the chosen summary, the
cycle consumes the whole budget and ends exhausted, with the iteration
counter equal to the budget. -/
theorem runLoop_exhausts (gen : Nat → Option String) :
    ∀ n k s, s.max_iterations - s.iteration_count ≤ n →
      s.iteration_count < s.max_iterations →
      (∀ j d, gen j = some d →
        hallucinationsOf d (extract_facts_from_summary s.chosen_summary) ≠ []) →
      (∀ j, gen j ≠ none) →
      (runLoop gen k s).outcome = Outcome.exhausted ∧
      (runLoop gen k s).cycles = k + (s.max_iterations - s.iteration_count) ∧
      (runLoop gen k s).final.iteration_count = s.max_iterations := by
  intro n
  induction n with
  | zero =>
    intro k s hn hlt _ _
    exact absurd hlt (by omega)
  | succ n ih =>
    intro k s hn hlt hfail hgen
    cases hg : gen k with
    | none => exact absurd hg (hgen k)
    | some d =>
      have hok : verifOk (verify_post_against_facts (generate_post d s)) = false := by
        rw [verifOk_after_verify (generate_post d s)
          (by
            simp only [generate_post_iteration_count, generate_post_max_iterations]
            exact hlt)]
        simp only [generate_post_facts, generate_post_post]
        cases hcase : hallucinationsOf d (extract_facts_from_summary s.chosen_summary) with
        | nil => exact absurd hcase (hfail k d hg)
        | cons a t => rfl
      by_cases hm : s.max_iterations ≤ s.iteration_count + 1
      · have hrt :
            route_after_verify (verify_post_against_facts (generate_post d s)) = "__end__" := by
          unfold route_after_verify
          rw [if_pos]
          right
          simp only [verify_iteration_count, verify_max_iterations,
            generate_post_iteration_count, generate_post_max_iterations]
          omega
        rw [runLoop_stop gen k s d hg hrt]
        refine ⟨?_, ?_, ?_⟩
        · show (if verifOk (verify_post_against_facts (generate_post d s)) = true
              then Outcome.passed else Outcome.exhausted) = Outcome.exhausted
          rw [hok]
          rfl
        · show k + 1 = k + (s.max_iterations - s.iteration_count)
          omega
        · show (verify_post_against_facts (generate_post d s)).iteration_count =
            s.max_iterations
          simp only [verify_iteration_count, generate_post_iteration_count]
          omega
      · have hncond :
            ¬(verifOk (verify_post_against_facts (generate_post d s)) = true ∨
              (verify_post_against_facts (generate_post d s)).max_iterations ≤
                (verify_post_against_facts (generate_post d s)).iteration_count) := by
          intro hcond
          rcases hcond with hcond | hcond
          · rw [hok] at hcond
            cases hcond
          · rw [verify_iteration_count, verify_max_iterations,
              generate_post_iteration_count, generate_post_max_iterations] at hcond
            omega
        have hrt :
            route_after_verify (verify_post_against_facts (generate_post d s)) ≠ "__end__" := by
          unfold route_after_verify
          rw [if_neg hncond]
          decide
        rw [runLoop_continue gen k s d hg hrt]
        have ihh := ih (k + 1) (verify_post_against_facts (generate_post d s))
          (by
            simp only [verify_iteration_count, verify_max_iterations,
              generate_post_iteration_count, generate_post_max_iterations]
            omega)
          (by
            simp only [verify_iteration_count, verify_max_iterations,
              generate_post_iteration_count, generate_post_max_iterations]
            omega)
          (by
            simp only [verify_chosen_summary, generate_post_chosen_summary]
            exact hfail)
          hgen
        simp only [verify_iteration_count, verify_max_iterations,
          generate_post_iteration_count, generate_post_max_iterations] at ihh
        exact ⟨ihh.1, by omega, by omega⟩

/-! ### Deduplication and extraction lemmas -/

theorem mem_dedup_go (l : List String) :
    ∀ (acc : List String) (x : String),
      x ∈ l.foldl (fun acc f => if acc.contains f then acc else acc ++ [f]) acc ↔
        x ∈ acc ∨ x ∈ l := by
  induction l with
  | nil =>
    intro acc x
    simp
  | cons f t ih =>
    intro acc x
    simp only [List.foldl_cons]
    by_cases hf : acc.contains f = true
    · rw [if_pos hf, ih]
      have hf2 : f ∈ acc := by simpa using hf
      constructor
      · intro h
        rcases h with h | h
        · exact Or.inl h
        · exact Or.inr (List.mem_cons_of_mem f h)
      · intro h
        rcases h with h | h
        · exact Or.inl h
        · rcases List.mem_cons.mp h with rfl | h2
          · exact Or.inl hf2
          · exact Or.inr h2
    · rw [if_neg hf, ih]
      simp [List.mem_append, List.mem_cons, or_assoc]

theorem nodup_dedup_go (l : List String) :
    ∀ acc : List String, acc.Nodup →
      (l.foldl (fun acc f => if acc.contains f then acc else acc ++ [f]) acc).Nodup := by
  induction l with
  | nil =>
    intro acc h
    simpa using h
  | cons f t ih =>
    intro acc h
    simp only [List.foldl_cons]
    by_cases hf : acc.contains f = true
    · rw [if_pos hf]
      exact ih acc h
    · rw [if_neg hf]
      apply ih
      have hf2 : f ∉ acc := by simpa using hf
      simp [List.nodup_append, h, hf2]

theorem dedup_go_skip (A : List String) (f : String) (hf : f ∈ A) (B : List String) :
    dedupFirst (A ++ f :: B) = dedupFirst (A ++ B) := by
  unfold dedupFirst
  rw [List.foldl_append, List.foldl_append]
  simp only [List.foldl_cons]
  rw [if_pos]
  have hmem : f ∈ A.foldl (fun acc g => if acc.contains g then acc else acc ++ [g]) [] :=
    (mem_dedup_go A [] f).mpr (Or.inr hf)
  simpa using hmem

theorem bullet_fold_eq (l : List String) :
    ∀ acc : List String,
      l.foldl (fun acc b =>
        if 3 ≤ (pySplit (String.mk (stripDashSpace b.toList)).toList).length
        then acc ++ [String.mk (stripDashSpace b.toList)] else acc) acc =
      acc ++ (l.map (fun b => String.mk (stripDashSpace b.toList))).filter
        (fun clean => 3 ≤ (pySplit clean.toList).length) := by
  induction l with
  | nil =>
    intro acc
    simp
  | cons b t ih =>
    intro acc
    simp only [List.foldl_cons, List.map_cons, List.filter_cons]
    by_cases hp : 3 ≤ (pySplit (String.mk (stripDashSpace b.toList)).toList).length
    · rw [if_pos hp, ih]
      have hp2 : 3 ≤ (pySplit (stripDashSpace b.data)).length := by simpa using hp
      simp [hp2]
    · rw [if_neg hp, ih]
      have hp2 : ¬3 ≤ (pySplit (stripDashSpace b.data)).length := by simpa using hp
      simp [hp2]

theorem sent_fold_dedup (l : List String) :
    ∀ A : List String,
      dedupFirst (l.foldl
        (fun acc s0 =>
          if 5 ≤ (pySplit (String.mk (pyStrip s0.toList)).toList).length
              && !acc.contains (String.mk (pyStrip s0.toList))
          then acc ++ [String.mk (pyStrip s0.toList)] else acc) A) =
      dedupFirst (A ++ (l.map (fun s0 => String.mk (pyStrip s0.toList))).filter
        (fun s1 => 5 ≤ (pySplit s1.toList).length)) := by
  induction l with
  | nil =>
    intro A
    simp
  | cons s0 t ih =>
    intro A
    simp only [List.foldl_cons, List.map_cons, List.filter_cons]
    by_cases hp : 5 ≤ (pySplit (String.mk (pyStrip s0.toList)).toList).length
    · have hp2 : 5 ≤ (pySplit (pyStrip s0.data)).length := by simpa using hp
      by_cases hm : A.contains (String.mk (pyStrip s0.toList)) = true
      · have hm2 : String.mk (pyStrip s0.data) ∈ A := by simpa using hm
        rw [show (decide (5 ≤ (pySplit (String.mk (pyStrip s0.toList)).toList).length)
            && !A.contains (String.mk (pyStrip s0.toList))) = false by simp [hp2, hm2]]
        rw [if_neg (by simp)]
        rw [ih A]
        rw [show decide (5 ≤ (pySplit (String.mk (pyStrip s0.toList)).toList).length) = true
          by simp [hp2]]
        rw [if_pos rfl]
        rw [dedup_go_skip A _ (by simpa using hm)]
      · have hm2 : String.mk (pyStrip s0.data) ∉ A := by simpa using hm
        rw [show (decide (5 ≤ (pySplit (String.mk (pyStrip s0.toList)).toList).length)
            && !A.contains (String.mk (pyStrip s0.toList))) = true by simp [hp2, hm2]]
        rw [if_pos rfl]
        rw [ih (A ++ [String.mk (pyStrip s0.toList)])]
        rw [show decide (5 ≤ (pySplit (String.mk (pyStrip s0.toList)).toList).length) = true
          by simp [hp2]]
        rw [if_pos rfl]
        rw [List.append_assoc]
        rfl
    · have hp2 : ¬5 ≤ (pySplit (pyStrip s0.data)).length := by simpa using hp
      rw [show (decide (5 ≤ (pySplit (String.mk (pyStrip s0.toList)).toList).length)
          && !A.contains (String.mk (pyStrip s0.toList))) = false by simp [hp2]]
      rw [if_neg (by simp)]
      rw [ih A]
      rw [show decide (5 ≤ (pySplit (String.mk (pyStrip s0.toList)).toList).length) = false
        by simp [hp2]]
      rw [if_neg (by simp)]

theorem extract_eq_dedup (summary : String) :
    extract_facts_from_summary summary =
      (dedupFirst (bulletFacts summary ++ sentenceFacts summary)).take 12 := by
  unfold extract_facts_from_summary bulletFacts sentenceFacts
  rw [bullet_fold_eq, sent_fold_dedup]
  simp

/-! ### Shape of the detected phrases -/

theorem phraseScanAux_ne_nil (fuel : Nat) :
    ∀ (pw : Bool) (cs : List Char) (acc : List (List Char)),
      (∀ p ∈ acc, p ≠ ([] : List Char)) →
      ∀ p ∈ phraseScanAux fuel pw cs acc, p ≠ [] := by
  induction fuel with
  | zero =>
    intro pw cs acc hacc p hp
    simp only [phraseScanAux] at hp
    exact hacc p (List.mem_reverse.mp hp)
  | succ n ih =>
    intro pw cs acc hacc p hp
    cases cs with
    | nil =>
      simp only [phraseScanAux] at hp
      exact hacc p (List.mem_reverse.mp hp)
    | cons c rest =>
      simp only [phraseScanAux] at hp
      split at hp
      · split at hp
        · exact ih _ _ _ hacc p hp
        · split at hp
          · refine ih _ _ _ ?_ p hp
            intro q hq
            rcases List.mem_cons.mp hq with rfl | hq2
            · simp
            · exact hacc q hq2
          · exact ih _ _ _ hacc p hp
      · exact ih _ _ _ hacc p hp

theorem mem_capital_phrases_shape (post : String) :
    ∀ p ∈ capital_phrases post, p.toList ≠ [] := by
  intro p hp
  unfold capital_phrases at hp
  rcases List.mem_map.mp hp with ⟨l, hl, rfl⟩
  exact phraseScanAux_ne_nil _ _ _ _ (by intro q hq; cases hq) l hl

theorem hallucinations_empty_facts (post : String) :
    hallucinationsOf post [] = capital_phrases post := by
  unfold hallucinationsOf
  apply List.filter_eq_self.mpr
  intro p hp
  have hne := mem_capital_phrases_shape post p hp
  cases hl : p.toList with
  | nil => exact absurd hl hne
  | cons c t => rfl

theorem dedupFirst_nodup (l : List String) : (dedupFirst l).Nodup := by
  unfold dedupFirst
  exact nodup_dedup_go l [] List.nodup_nil

/-! ## The claims -/

/-- Claim C1, counterexample.  The claim states that the verdict passes
iff every contiguous capitalized multi-word phrase — at least two
consecutive capitalized tokens — of the draft appears lowercased in the
facts.  The draft "A Big deal" contains the two consecutive capitalized
tokens "A Big", which appear in no fact, yet the code passes it: the
code's regex requires the first word of a phrase to have at least two
letters, so the single-letter token "A" cannot start a phrase and nothing
is flagged. -/
theorem C1_counterexample :
    verifOk (verify_post_against_facts
      { chosen_summary := "", post := "A Big deal", facts := [],
        verification := none, iteration_count := 0, max_iterations := 3 }) = true ∧
    claimAllCovered "A Big deal" [] = false := by
  exact ⟨by decide, by decide⟩

/-- Claim C1, amended: for a verification entered with budget remaining,
the verdict has `passed = true` iff every phrase produced by the code's
capitalized-phrase regex scan of the draft (first token an uppercase
letter plus at least one further letter, subsequent tokens an uppercase
letter plus letters/digits/hyphens, maximal non-overlapping matches
delimited by word boundaries) appears, lowercased, as a substring of the
lowercased `" \n"`-joined fact text. -/
theorem C1_amended (s : AppState) (h : s.iteration_count < s.max_iterations) :
    verifOk (verify_post_against_facts s) = true ↔
      ∀ p ∈ capital_phrases s.post,
        containsSub (lowerL p.toList) (fact_text s.facts) = true := by
  rw [verifOk_after_verify s h]
  rw [List.isEmpty_iff]
  unfold hallucinationsOf
  rw [List.filter_eq_nil_iff]
  constructor
  · intro hall p hp
    simpa using hall p hp
  · intro hall p hp
    simpa using hall p hp

/-- Claim C1, witness for the amended theorem at a concrete state. -/
theorem C1_amended_witness :
    verifOk (verify_post_against_facts
      { chosen_summary := "", post := "Microsoft Azure rocks",
        facts := ["Microsoft Azure cloud"], verification := none,
        iteration_count := 0, max_iterations := 3 }) = true ↔
      ∀ p ∈ capital_phrases "Microsoft Azure rocks",
        containsSub (lowerL p.toList) (fact_text ["Microsoft Azure cloud"]) = true :=
  C1_amended
    { chosen_summary := "", post := "Microsoft Azure rocks",
      facts := ["Microsoft Azure cloud"], verification := none,
      iteration_count := 0, max_iterations := 3 } (by decide)

/-- Claim C2, counterexample.  The claim bounds every run by
`maxIterations` generate/verify cycles for every initial state; but the
cycle always runs once before any budget check, so a session started with
`maxIterations = 0` performs one cycle, exceeding the bound. -/
theorem C2_counterexample :
    ¬ ((runVerificationLoop (fun _ => some "Hello World news") "" 0).cycles ≤ 0) := by
  intro hle
  have h1 : (runVerificationLoop (fun _ => some "Hello World news") "" 0).cycles = 1 := by
    unfold runVerificationLoop
    rw [runLoop_stop (fun _ => some "Hello World news") 0 _ "Hello World news" rfl
      (by decide)]
  rw [h1] at hle
  exact absurd hle (by decide)

/-- Claim C2, amended: for every positive iteration budget (the spec's
sessions start with `maxIterations` defaulting to 3) and every oracle, the
loop terminates in exactly one of the outcomes Passed, Exhausted or
GenerationError — it is a total function into that three-valued outcome
type — and performs at most `maxIterations` generate/verify cycles; with a
zero budget it still performs one cycle. -/
theorem C2_amended (gen : Nat → Option String) (summary : String)
    (maxIter : Nat) (hm : 0 < maxIter) :
    ((runVerificationLoop gen summary maxIter).outcome = Outcome.passed ∨
     (runVerificationLoop gen summary maxIter).outcome = Outcome.exhausted ∨
     (runVerificationLoop gen summary maxIter).outcome = Outcome.genError) ∧
    (runVerificationLoop gen summary maxIter).cycles ≤ maxIter := by
  unfold runVerificationLoop
  have inv := runLoop_invariants gen maxIter 0 ⟨summary, "", [], none, 0, maxIter⟩
    (show maxIter - 0 ≤ maxIter by omega) (show 0 < maxIter from hm)
  refine ⟨?_, by have h1 := inv.1; simpa using h1⟩
  cases (runLoop gen 0 ⟨summary, "", [], none, 0, maxIter⟩).outcome
  · exact Or.inl rfl
  · exact Or.inr (Or.inl rfl)
  · exact Or.inr (Or.inr rfl)

/-- Claim C2, witness for the amended theorem at a concrete input. -/
theorem C2_witness :
    ((runVerificationLoop (fun _ => none) "" 3).outcome = Outcome.passed ∨
     (runVerificationLoop (fun _ => none) "" 3).outcome = Outcome.exhausted ∨
     (runVerificationLoop (fun _ => none) "" 3).outcome = Outcome.genError) ∧
    (runVerificationLoop (fun _ => none) "" 3).cycles ≤ 3 :=
  C2_amended (fun _ => none) "" 3 (by decide)

/-- Claim C3, counterexample.  The claim says the loop terminates before
the iteration counter can exceed `maxIterations`; with `maxIterations =
0` the counter still reaches 1, because the first verification call runs
and increments it before the budget is consulted. -/
theorem C3_counterexample :
    ¬ ((runVerificationLoop (fun _ => some "Breaking Story today") "" 0).final.iteration_count
      ≤ 0) := by
  intro hle
  have h1 : (runVerificationLoop (fun _ => some "Breaking Story today") "" 0).final.iteration_count = 1 := by
    unfold runVerificationLoop
    rw [runLoop_stop (fun _ => some "Breaking Story today") 0 _ "Breaking Story today" rfl
      (by decide)]
    decide
  rw [h1] at hle
  exact absurd hle (by decide)

/-- Claim C3, amended: the iteration counter is incremented exactly once
per verification call; for every positive budget the counter at
termination never exceeds `maxIterations` (with a zero budget it reaches
1); and in Scenario D — budget 3, the oracle never raises, and every
generated draft has a hallucination against the session facts — the loop
ends Exhausted after exactly 3 cycles with the counter at 3. -/
theorem C3_amended :
    (∀ s : AppState,
      (verify_post_against_facts s).iteration_count = s.iteration_count + 1) ∧
    (∀ (gen : Nat → Option String) (summary : String) (maxIter : Nat), 0 < maxIter →
      (runVerificationLoop gen summary maxIter).final.iteration_count ≤ maxIter) ∧
    (∀ (gen : Nat → Option String) (summary : String),
      (∀ j, gen j ≠ none) →
      (∀ j d, gen j = some d →
        hallucinationsOf d (extract_facts_from_summary summary) ≠ []) →
      (runVerificationLoop gen summary 3).outcome = Outcome.exhausted ∧
      (runVerificationLoop gen summary 3).cycles = 3 ∧
      (runVerificationLoop gen summary 3).final.iteration_count = 3) := by
  refine ⟨verify_iteration_count, ?_, ?_⟩
  · intro gen summary maxIter hm
    unfold runVerificationLoop
    have inv := runLoop_invariants gen maxIter 0 ⟨summary, "", [], none, 0, maxIter⟩
      (show maxIter - 0 ≤ maxIter by omega) (show 0 < maxIter from hm)
    simpa using inv.2.2.1
  · intro gen summary hgen hfail
    unfold runVerificationLoop
    have hx := runLoop_exhausts gen 3 0 ⟨summary, "", [], none, 0, 3⟩
      (show 3 - 0 ≤ 3 by omega) (show (0 : Nat) < 3 by omega) hfail hgen
    exact ⟨hx.1, by simpa using hx.2.1, by simpa using hx.2.2⟩

/-- Claim C3, witness: the counter increment at a concrete state, and
Scenario D at a concrete oracle whose drafts always hallucinate. -/
theorem C3_witness :
    (verify_post_against_facts
      { chosen_summary := "", post := "", facts := [], verification := none,
        iteration_count := 0, max_iterations := 3 }).iteration_count = 1 ∧
    (runVerificationLoop (fun _ => some "Fake News story") "" 3).outcome =
      Outcome.exhausted ∧
    (runVerificationLoop (fun _ => some "Fake News story") "" 3).cycles = 3 ∧
    (runVerificationLoop (fun _ => some "Fake News story") "" 3).final.iteration_count = 3 := by
  refine ⟨C3_amended.1 _, ?_⟩
  exact C3_amended.2.2 (fun _ => some "Fake News story") ""
    (by intro j; simp)
    (by
      intro j d hd
      injection hd with hd2
      rw [← hd2]
      decide)

/-- Claim C4, counterexample.  The claim says any draft containing the
phrase "Microsoft Azure" fails verification against an empty fact list;
the draft "xMicrosoft Azure" contains that phrase as a substring, yet the
regex detects no capitalized phrase in it (the leading word boundary
fails inside "xMicrosoft"), so verification passes. -/
theorem C4_counterexample :
    containsSub "Microsoft Azure".toList "xMicrosoft Azure".toList = true ∧
    verifOk (verify_post_against_facts
      { chosen_summary := "", post := "xMicrosoft Azure", facts := [],
        verification := none, iteration_count := 0, max_iterations := 3 }) = true := by
  exact ⟨by decide, by decide⟩

/-- Claim C4, amended: extracting facts from the empty string yields the
empty list, and with an empty fact list any draft in which the code's
regex detects at least one capitalized multi-word phrase fails
verification, every detected phrase being flagged (in particular a draft
where "Microsoft Azure" is detected is flagged on it). -/
theorem C4_amended :
    extract_facts_from_summary "" = [] ∧
    (∀ s : AppState, s.facts = [] → s.iteration_count < s.max_iterations →
      capital_phrases s.post ≠ [] →
      verifOk (verify_post_against_facts s) = false ∧
      (verify_post_against_facts s).verification.map Report.missing_phrases =
        some (capital_phrases s.post)) := by
  constructor
  · decide
  · intro s hfacts hlt hphr
    have h1 : hallucinationsOf s.post s.facts = capital_phrases s.post := by
      rw [hfacts, hallucinations_empty_facts]
    rw [verify_normal s hlt]
    constructor
    · show (hallucinationsOf s.post s.facts).isEmpty = false
      rw [h1]
      cases hc : capital_phrases s.post with
      | nil => exact absurd hc hphr
      | cons a t => rfl
    · show some (hallucinationsOf s.post s.facts) = some (capital_phrases s.post)
      rw [h1]

/-- Claim C4, witness for the amended theorem: the draft
"Microsoft Azure is reliable" against an empty fact list fails with
exactly "Microsoft Azure" flagged. -/
theorem C4_witness :
    capital_phrases "Microsoft Azure is reliable" = ["Microsoft Azure"] ∧
    extract_facts_from_summary "" = [] ∧
    verifOk (verify_post_against_facts
      { chosen_summary := "", post := "Microsoft Azure is reliable", facts := [],
        verification := none, iteration_count := 0, max_iterations := 3 }) = false ∧
    (verify_post_against_facts
      { chosen_summary := "", post := "Microsoft Azure is reliable", facts := [],
        verification := none, iteration_count := 0,
        max_iterations := 3 }).verification.map Report.missing_phrases =
      some (capital_phrases "Microsoft Azure is reliable") := by
  have h := C4_amended.2
    { chosen_summary := "", post := "Microsoft Azure is reliable", facts := [],
      verification := none, iteration_count := 0, max_iterations := 3 }
    rfl (by decide) (by decide)
  exact ⟨by decide, C4_amended.1, h.1, h.2⟩

/-- Claim C5, counterexample.  The claim says the draft
"Microsoft Azure AI updates are significant." verifies against the fact
"Microsoft announced Azure AI updates" with `passed = true`; in fact the
greedy regex detects the three-word phrase "Microsoft Azure AI", whose
lowercase form is not a substring of the lowercased fact text, so the
draft is flagged and `passed = false`. -/
theorem C5_counterexample :
    verifOk (verify_post_against_facts
      { chosen_summary := "", post := "Microsoft Azure AI updates are significant.",
        facts := ["Microsoft announced Azure AI updates"], verification := none,
        iteration_count := 0, max_iterations := 3 }) = false := by
  decide

/-- Claim C5, amended: on Scenario C's inputs the detected phrase list is
exactly ["Microsoft Azure AI"] (not the two-word "Microsoft Azure" the
spec hedged about), that phrase is not covered by the facts, and the
verification verdict is a failure flagging it. -/
theorem C5_amended :
    capital_phrases "Microsoft Azure AI updates are significant." =
      ["Microsoft Azure AI"] ∧
    containsSub (lowerL "Microsoft Azure AI".toList)
      (fact_text ["Microsoft announced Azure AI updates"]) = false ∧
    (verify_post_against_facts
      { chosen_summary := "", post := "Microsoft Azure AI updates are significant.",
        facts := ["Microsoft announced Azure AI updates"], verification := none,
        iteration_count := 0, max_iterations := 3 }).verification =
      some { ok := false, missing_phrases := ["Microsoft Azure AI"],
             checked_phrases := ["Microsoft Azure AI"],
             facts_used := ["Microsoft announced Azure AI updates"],
             max_iterations_reached := false, message := none,
             iteration := some 1 } := by
  exact ⟨by decide, by decide, by decide⟩

/-- Claim C6, counterexample.  The claim says Scenario A's summary
yields exactly 2 facts; the code yields 3: the sentence splitter keeps the
"- " bullet marker on the second sentence, so exact-match deduplication
does not merge it with the stripped bullet fact. -/
theorem C6_counterexample :
    (extract_facts_from_summary
      "- Revenue grew 40%.\n- Microsoft announced a new product.").length = 3 := by
  decide

/-- Claim C6, amended: Scenario A's summary yields exactly these 3 facts:
the two stripped bullets, then the sentence-derived
"- Microsoft announced a new product." (the first sentence piece has only
4 whitespace tokens and is dropped; the second has 6 and differs from the
stripped bullet by its retained marker, so it survives deduplication). -/
theorem C6_amended :
    extract_facts_from_summary
      "- Revenue grew 40%.\n- Microsoft announced a new product." =
      ["Revenue grew 40%.", "Microsoft announced a new product.",
       "- Microsoft announced a new product."] := by
  decide

/-- Claim C7: when the loop exhausts its budget, the claim (and spec) say
the final verdict visible to the caller carries the exhausted /
max-iterations-reached marking.  The code violates this: on the failing
input below (budget 1, a draft that hallucinates) the run ends Exhausted,
yet the final report has `max_iterations_reached = False` — the marked
report is built only when the verifier is entered with
`iteration_count >= max_iterations`, which `route_after_verify` makes
unreachable within a run, ending the graph first. -/
theorem C7_exhausted_unmarked :
    (runVerificationLoop (fun _ => some "Fake News story") "" 1).outcome =
      Outcome.exhausted ∧
    (runVerificationLoop (fun _ => some "Fake News story") "" 1).final.verification.map
      Report.max_iterations_reached = some false := by
  unfold runVerificationLoop
  rw [runLoop_stop (fun _ => some "Fake News story") 0 _ "Fake News story" rfl (by decide)]
  exact ⟨by decide, by decide⟩

/-- Claim C8: if the generation collaborator fails, the error is a
terminal outcome distinct from Exhausted, it points at the failed call,
and the iteration counter keeps the value it had after the last completed
verification — it equals the number of completed cycles and is not
incremented for the failed attempt. -/
theorem C8_generation_error (gen : Nat → Option String) (summary : String)
    (maxIter : Nat) (hm : 0 < maxIter)
    (he : (runVerificationLoop gen summary maxIter).outcome = Outcome.genError) :
    gen (runVerificationLoop gen summary maxIter).cycles = none ∧
    (runVerificationLoop gen summary maxIter).final.iteration_count =
      (runVerificationLoop gen summary maxIter).cycles := by
  unfold runVerificationLoop at he ⊢
  have inv := runLoop_invariants gen maxIter 0 ⟨summary, "", [], none, 0, maxIter⟩
    (show maxIter - 0 ≤ maxIter by omega) (show 0 < maxIter from hm)
  refine ⟨inv.2.2.2.2.1 he, ?_⟩
  have h2 := inv.2.1
  simpa using h2

/-- Claim C8, witness: an oracle that raises on its first call gives a
GenerationError with zero completed cycles and the counter still 0. -/
theorem C8_witness :
    (runVerificationLoop (fun _ => none) "" 3).outcome = Outcome.genError ∧
    (fun _ => (none : Option String)) (runVerificationLoop (fun _ => none) "" 3).cycles
      = none ∧
    (runVerificationLoop (fun _ => none) "" 3).final.iteration_count =
      (runVerificationLoop (fun _ => none) "" 3).cycles := by
  have ho : (runVerificationLoop (fun _ => none) "" 3).outcome = Outcome.genError := by
    unfold runVerificationLoop
    rw [runLoop_genError _ 0 _ rfl]
  have h := C8_generation_error (fun _ => none) "" 3 (by decide) ho
  exact ⟨ho, h.1, h.2⟩

/-- Claim C9: for every summary the extracted fact list is the
first-occurrence deduplication of the bullet-derived candidates followed
by the sentence-derived candidates, truncated to 12 entries; hence it has
length at most 12 and no duplicates, and lists bullet candidates before
sentence candidates in discovery order. -/
theorem C9_extract_shape (summary : String) :
    extract_facts_from_summary summary =
      (dedupFirst (bulletFacts summary ++ sentenceFacts summary)).take 12 ∧
    (extract_facts_from_summary summary).length ≤ 12 ∧
    (extract_facts_from_summary summary).Nodup := by
  refine ⟨extract_eq_dedup summary, ?_, ?_⟩
  · rw [extract_eq_dedup summary]
    exact List.length_take_le 12 _
  · rw [extract_eq_dedup summary]
    exact List.Nodup.sublist (List.take_sublist _ _) (dedupFirst_nodup _)

/-- Claim C10: within a session the fact list is recomputed identically
on every iteration — `generate_post` always sets it to the deterministic
extraction from the chosen summary, both nodes leave the chosen summary
(and `verify` the fact list) untouched, and across a whole run the final
state still carries the initial chosen summary, its facts being the
extraction from it (unless the very first generation call failed, leaving
the initial state untouched). -/
theorem C10_facts_stable :
    (∀ (d : String) (s : AppState),
      (generate_post d s).facts = extract_facts_from_summary s.chosen_summary ∧
      (generate_post d s).chosen_summary = s.chosen_summary) ∧
    (∀ s : AppState,
      (verify_post_against_facts s).facts = s.facts ∧
      (verify_post_against_facts s).chosen_summary = s.chosen_summary) ∧
    (∀ (gen : Nat → Option String) (k : Nat) (s : AppState),
      (runLoop gen k s).final.chosen_summary = s.chosen_summary ∧
      ((runLoop gen k s).final = s ∨
        (runLoop gen k s).final.facts =
          extract_facts_from_summary s.chosen_summary)) := by
  refine ⟨fun d s => ⟨rfl, rfl⟩,
    fun s => ⟨verify_facts s, verify_chosen_summary s⟩, ?_⟩
  intro gen k s
  exact runLoop_state_inv gen (s.max_iterations - s.iteration_count) k s (le_refl _)

end AgenticAI
